import Mathlib

/-!
Verification of the publish-transform pipeline
(exposure-notifications-server, `internal/publish/model/exposure_model.go`).

This file gives a shallow embedding of the publish data model, the
attestation-nonce canonicalizer (`AndroidNonce`), the per-key transformer
(`TransformExposureKey`) and the batch validator (`TransformPublish`), and
proves/refutes the specification claims about them.

Modelling conventions:
* Go `int32` values are `Int` with an explicit two's-complement wrap
  (`toInt32`) applied exactly where Go arithmetic is performed at 32 bits.
* `time.Time` is an `Int` of nanoseconds since the Unix epoch; `time.Duration`
  is an `Int` of nanoseconds.
* Go errors are inductive error kinds carrying the data the source formats
  into the message.
* The environment variable `SKIP_KEY_DATE_VALIDATION` read inside
  `TransformExposureKey` is made an explicit boolean parameter
  `skipKeyDateValidation` (the value `strconv.ParseBool(os.Getenv(...))`
  produces; an unset variable yields `false`).
* `sort.Slice` is modelled with `List.insertionSort`, which is stable; Go's
  `sort.Slice` uses insertion sort (also stable) for ranges shorter than 13
  elements, and the relative order of ties is observable only through the
  returned list, never through the checks.
-/

/-! ## Bytes and 32-bit words -/

/-- The definition `2 ^ 32`. -/
def pow32 : Nat := 4294967296

/-- The 32-bit modular addition. -/
def add32 (a b : Nat) : Nat := (a + b) % pow32

/-- The 32-bit right rotation by `n` bits. -/
def rotr32 (n x : Nat) : Nat := ((x >>> n) ||| (x <<< (32 - n))) % pow32

/-- Two's-complement truncation of an integer to a signed 32-bit value,
modelling Go's `int32(x)` conversion. -/
def toInt32 (n : Int) : Int := (n + 2147483648) % 4294967296 - 2147483648

/-! ## SHA-256

Modelled from the spec: the repository calls `crypto/sha256` (Go standard
library, not part of this repository's sources); spec §4.2 step 5 asks for
"the cryptographic hash (256-bit secure digest) of the UTF-8 bytes of the
cleartext", i.e. FIPS 180-4 SHA-256.  The implementation below is SHA-256
over byte lists. -/

/-- SHA-256 big sigma-0. -/
def bigS0 (x : Nat) : Nat := (rotr32 2 x) ^^^ (rotr32 13 x) ^^^ (rotr32 22 x)

/-- SHA-256 big sigma-1. -/
def bigS1 (x : Nat) : Nat := (rotr32 6 x) ^^^ (rotr32 11 x) ^^^ (rotr32 25 x)

/-- SHA-256 small sigma-0. -/
def smallS0 (x : Nat) : Nat := (rotr32 7 x) ^^^ (rotr32 18 x) ^^^ (x >>> 3)

/-- SHA-256 small sigma-1. -/
def smallS1 (x : Nat) : Nat := (rotr32 17 x) ^^^ (rotr32 19 x) ^^^ (x >>> 10)

/-- SHA-256 choice function; `4294967295 - e` is the 32-bit complement. -/
def chV (e f g : Nat) : Nat := (e &&& f) ^^^ ((4294967295 - e) &&& g)

/-- SHA-256 majority function. -/
def majV (a b c : Nat) : Nat := (a &&& b) ^^^ (a &&& c) ^^^ (b &&& c)

/-- The 64 SHA-256 round constants (fractional parts of the cube roots of the
first 64 primes). -/
def sha256K : List Nat := [1116352408, 1899447441, 3049323471, 3921009573,
  961987163, 1508970993, 2453635748, 2870763221, 3624381080, 310598401,
  607225278, 1426881987, 1925078388, 2162078206, 2614888103, 3248222580,
  3835390401, 4022224774, 264347078, 604807628, 770255983, 1249150122,
  1555081692, 1996064986, 2554220882, 2821834349, 2952996808, 3210313671,
  3336571891, 3584528711, 113926993, 338241895, 666307205, 773529912,
  1294757372, 1396182291, 1695183700, 1986661051, 2177026350, 2456956037,
  2730485921, 2820302411, 3259730800, 3345764771, 3516065817, 3600352804,
  4094571909, 275423344, 430227734, 506948616, 659060556, 883997877,
  958139571, 1322822218, 1537002063, 1747873779, 1955562222, 2024104815,
  2227730452, 2361852424, 2428436474, 2756734187, 3204031479, 3329325298]

/-- The eight 32-bit words of SHA-256 working state. -/
structure Hash8 where
  a : Nat
  b : Nat
  c : Nat
  d : Nat
  e : Nat
  f : Nat
  g : Nat
  h : Nat
deriving DecidableEq

/-- The SHA-256 initial hash value (fractional parts of the square roots of
the first 8 primes). -/
def sha256H0 : Hash8 := ⟨1779033703, 3144134277, 1013904242, 2773480762,
  1359893119, 2600822924, 528734635, 1541459225⟩

/-- Extend a 16-word message-schedule window by `fuel` further words,
returning the words produced. -/
def msgExtend : Nat → List Nat → List Nat
  | 0, _ => []
  | fuel+1, w0 :: w1 :: w2 :: w3 :: w4 :: w5 :: w6 :: w7 :: w8 :: w9 ::
      w10 :: w11 :: w12 :: w13 :: w14 :: w15 :: [] =>
    let w := add32 (add32 (smallS1 w14) w9) (add32 (smallS0 w1) w0)
    w :: msgExtend fuel (w1 :: w2 :: w3 :: w4 :: w5 :: w6 :: w7 :: w8 ::
      w9 :: w10 :: w11 :: w12 :: w13 :: w14 :: w15 :: w :: [])
  | _+1, _ => []

/-- One SHA-256 compression round; the pair carries the schedule word and the
round constant. -/
def compressStep (st : Hash8) (wk : Nat × Nat) : Hash8 :=
  let t1 := add32 st.h (add32 (add32 (bigS1 st.e) (chV st.e st.f st.g)) (add32 wk.1 wk.2))
  let t2 := add32 (bigS0 st.a) (majV st.a st.b st.c)
  ⟨add32 t1 t2, st.a, st.b, st.c, add32 st.d t1, st.e, st.f, st.g⟩

/-- Pointwise 32-bit addition of hash states. -/
def addH (x y : Hash8) : Hash8 :=
  ⟨add32 x.a y.a, add32 x.b y.b, add32 x.c y.c, add32 x.d y.d,
   add32 x.e y.e, add32 x.f y.f, add32 x.g y.g, add32 x.h y.h⟩

/-- Big-endian 4-byte groups to 32-bit words. -/
def toWords : List Nat → List Nat
  | b0 :: b1 :: b2 :: b3 :: rest => (((b0 * 256 + b1) * 256 + b2) * 256 + b3) :: toWords rest
  | _ => []

/-- Split a byte list into 64-byte chunks (`fuel` bounds the recursion). -/
def chunks64 : Nat → List Nat → List (List Nat)
  | 0, _ => []
  | _+1, [] => []
  | fuel+1, l => l.take 64 :: chunks64 fuel (l.drop 64)

/-- SHA-256 padding: a `0x80` byte, zeros to 56 mod 64, and the 64-bit
big-endian bit length. -/
def padMsg (msg : List Nat) : List Nat :=
  let len := msg.length
  let padZeros := (119 - len % 64) % 64
  let bitLen := len * 8
  msg ++ [128] ++ List.replicate padZeros 0 ++
    [bitLen >>> 56 % 256, bitLen >>> 48 % 256, bitLen >>> 40 % 256, bitLen >>> 32 % 256,
     bitLen >>> 24 % 256, bitLen >>> 16 % 256, bitLen >>> 8 % 256, bitLen % 256]

/-- SHA-256 compression of one 64-byte block into the running hash state. -/
def compressBlock (st : Hash8) (block : List Nat) : Hash8 :=
  let w16 := toWords block
  let w := w16 ++ msgExtend 48 w16
  addH st ((w.zip sha256K).foldl compressStep st)

/-- A 32-bit word as 4 big-endian bytes. -/
def wordBytes (w : Nat) : List Nat := [w >>> 24 % 256, (w >>> 16) % 256, (w >>> 8) % 256, w % 256]

/-- SHA-256 digest (32 bytes) of a byte list. -/
def sha256 (msg : List Nat) : List Nat :=
  let blocks := chunks64 (msg.length + 73) (padMsg msg)
  let hf := blocks.foldl compressBlock sha256H0
  wordBytes hf.a ++ wordBytes hf.b ++ wordBytes hf.c ++ wordBytes hf.d ++
    wordBytes hf.e ++ wordBytes hf.f ++ wordBytes hf.g ++ wordBytes hf.h

/-! ## Base64 (RFC 4648, standard alphabet, with padding)

Modelled from the spec: the source calls `base64.StdEncoding.EncodeToString`
(Go standard library) for the nonce output, and
`base64util.DecodeString` (a repository package whose source is not under
`src/`) for key decoding; the spec says keys are "base64 (RFC 4648) encoded"
including padding, and the nonce uses "standard padded base-64". -/

/-- The standard base64 alphabet. -/
def b64Alphabet : List Char :=
  "ABCDEFGHIJKLMNOPQRSTUVWXYZabcdefghijklmnopqrstuvwxyz0123456789+/".data

/-- The base64 digit for a 6-bit value. -/
def b64Char (n : Nat) : Char := b64Alphabet.getD n 'A'

/-- Encode a byte list into base64 characters, 3 bytes to 4 digits, with
`'='` padding on a final partial group. -/
def b64EncodeGroups : List Nat → List Char
  | b0 :: b1 :: b2 :: rest =>
    b64Char (b0 >>> 2) :: b64Char (((b0 % 4) <<< 4) ||| (b1 >>> 4)) ::
      b64Char (((b1 % 16) <<< 2) ||| (b2 >>> 6)) :: b64Char (b2 % 64) :: b64EncodeGroups rest
  | [b0] => [b64Char (b0 >>> 2), b64Char ((b0 % 4) <<< 4), '=', '=']
  | [b0, b1] => [b64Char (b0 >>> 2), b64Char (((b0 % 4) <<< 4) ||| (b1 >>> 4)),
      b64Char ((b1 % 16) <<< 2), '=']
  | [] => []

/-- Standard padded base64 encoding of a byte list. -/
def base64Encode (bs : List Nat) : String := String.mk (b64EncodeGroups bs)

/-- The 6-bit value of a base64 digit, or `none` for a character outside the
standard alphabet. -/
def b64CharVal (c : Char) : Option Nat :=
  if 'A' ≤ c ∧ c ≤ 'Z' then some (c.toNat - 65)
  else if 'a' ≤ c ∧ c ≤ 'z' then some (c.toNat - 97 + 26)
  else if '0' ≤ c ∧ c ≤ '9' then some (c.toNat - 48 + 52)
  else if c = '+' then some 62
  else if c = '/' then some 63
  else none

/-- Decode base64 characters in groups of 4; `'='` padding is allowed only to
close the final group. -/
def b64DecodeGroups : List Char → Option (List Nat)
  | [] => some []
  | c0 :: c1 :: c2 :: c3 :: rest =>
    match b64CharVal c0, b64CharVal c1 with
    | some v0, some v1 =>
      if c2 = '=' then
        if c3 = '=' ∧ rest = [] then some [(v0 <<< 2) ||| (v1 >>> 4)] else none
      else
        match b64CharVal c2 with
        | some v2 =>
          if c3 = '=' then
            if rest = [] then
              some [(v0 <<< 2) ||| (v1 >>> 4), ((v1 % 16) <<< 4) ||| (v2 >>> 2)]
            else none
          else
            match b64CharVal c3 with
            | some v3 =>
              (b64DecodeGroups rest).map
                (fun bs => ((v0 <<< 2) ||| (v1 >>> 4)) ::
                  (((v1 % 16) <<< 4) ||| (v2 >>> 2)) :: (((v2 % 4) <<< 6) ||| v3) :: bs)
            | none => none
        | none => none
    | _, _ => none
  | _ => none

/-- Modelled from the spec: `base64util.DecodeString` (repository package not
under `src/`), decoding an RFC 4648 standard padded base64 string to bytes;
`none` models a decode error. -/
def DecodeString (s : String) : Option (List Nat) := b64DecodeGroups s.data

/-! ## UTF-8 encoding of strings -/

/-- The UTF-8 bytes of one Unicode scalar value. -/
def utf8Char (c : Char) : List Nat :=
  let n := c.toNat
  if n < 128 then [n]
  else if n < 2048 then [192 + n / 64, 128 + n % 64]
  else if n < 65536 then [224 + n / 4096, 128 + (n / 64) % 64, 128 + n % 64]
  else [240 + n / 262144, 128 + (n / 4096) % 64, 128 + (n / 64) % 64, 128 + n % 64]

/-- UTF-8 bytes of a character list. -/
def utf8Encode : List Char → List Nat
  | [] => []
  | c :: cs => utf8Char c ++ utf8Encode cs

/-- UTF-8 bytes of a string (Go's `[]byte(s)`). -/
def utf8Bytes (s : String) : List Nat := utf8Encode s.data

/-- Character-wise upper-casing, modelling `strings.ToUpper` (Go standard
library; ASCII range — region codes and the tests here use only ASCII).
Lean's own `String.toUpper` is avoided because its `mapAux` does not reduce
in the kernel. -/
def strToUpper (s : String) : String := String.mk (s.data.map Char.toUpper)

instance {ε α : Type} [DecidableEq ε] [DecidableEq α] : DecidableEq (Except ε α) :=
  fun a b =>
    match a, b with
    | .error e1, .error e2 =>
      if h : e1 = e2 then isTrue (by rw [h]) else isFalse (by simp [h])
    | .ok a1, .ok a2 =>
      if h : a1 = a2 then isTrue (by rw [h]) else isFalse (by simp [h])
    | .error _, .ok _ => isFalse (by simp)
    | .ok _, .error _ => isFalse (by simp)

/-! ## Lexicographic string comparison

Go compares strings byte-wise; on UTF-8 text this is the same order as
comparing Unicode scalar values position by position.  The core `String.lt`
is not used because `String.ltb` does not reduce in the kernel. -/

/-- Lexicographic comparison of character lists by scalar value
(`true` when the first is less than or equal to the second). -/
def charListLE : List Char → List Char → Bool
  | [], _ => true
  | _ :: _, [] => false
  | a :: as, b :: bs =>
    if a.toNat < b.toNat then true
    else if b.toNat < a.toNat then false
    else charListLE as bs

/-- The definition `charListLE` is total. -/
theorem charListLE_total : ∀ l1 l2 : List Char,
    charListLE l1 l2 = true ∨ charListLE l2 l1 = true
  | [], _ => Or.inl rfl
  | _ :: _, [] => Or.inr rfl
  | a :: as, b :: bs => by
    by_cases hab : a.toNat < b.toNat
    · left; simp [charListLE, hab]
    · by_cases hba : b.toNat < a.toNat
      · right; simp [charListLE, hba]
      · rcases charListLE_total as bs with h | h
        · left; simp [charListLE, hab, hba, h]
        · right; simp [charListLE, hab, hba, h]

/-- The definition `charListLE` is transitive. -/
theorem charListLE_trans : ∀ l1 l2 l3 : List Char, charListLE l1 l2 = true →
    charListLE l2 l3 = true → charListLE l1 l3 = true
  | [], _, _, _, _ => rfl
  | _ :: _, [], _, h12, _ => absurd h12 (by simp [charListLE])
  | _ :: _, _ :: _, [], _, h23 => absurd h23 (by simp [charListLE])
  | a :: as, b :: bs, c :: cs, h12, h23 => by
    simp only [charListLE] at h12 h23 ⊢
    by_cases hab : a.toNat < b.toNat <;> by_cases hba : b.toNat < a.toNat <;>
      by_cases hbc : b.toNat < c.toNat <;> by_cases hcb : c.toNat < b.toNat <;>
      try omega
    · rw [if_pos (by omega)]
    · rw [if_neg hbc, if_pos hcb] at h23
      exact absurd h23 (by simp)
    · rw [if_pos (by omega)]
    · rw [if_neg hab, if_pos hba] at h12
      exact absurd h12 (by simp)
    · rw [if_neg hab, if_pos hba] at h12
      exact absurd h12 (by simp)
    · rw [if_neg hab, if_pos hba] at h12
      exact absurd h12 (by simp)
    · rw [if_pos (by omega)]
    · rw [if_neg hbc, if_pos hcb] at h23
      exact absurd h23 (by simp)
    · rw [if_neg hab, if_neg hba] at h12
      rw [if_neg hbc, if_neg hcb] at h23
      rw [if_neg (by omega), if_neg (by omega)]
      exact charListLE_trans as bs cs h12 h23

/-- Injectivity of `Char.toNat`. -/
theorem charToNat_inj {a b : Char} (h : a.toNat = b.toNat) : a = b :=
  Char.ofNat_toNat a ▸ Char.ofNat_toNat b ▸ congrArg Char.ofNat h

/-- The definition `charListLE` is antisymmetric. -/
theorem charListLE_antisymm : ∀ l1 l2 : List Char, charListLE l1 l2 = true →
    charListLE l2 l1 = true → l1 = l2
  | [], [], _, _ => rfl
  | [], _ :: _, _, h21 => absurd h21 (by simp [charListLE])
  | _ :: _, [], h12, _ => absurd h12 (by simp [charListLE])
  | a :: as, b :: bs, h12, h21 => by
    simp only [charListLE] at h12 h21
    by_cases hab : a.toNat < b.toNat
    · rw [if_neg (by omega), if_pos hab] at h21
      exact absurd h21 (by simp)
    · by_cases hba : b.toNat < a.toNat
      · rw [if_neg hab, if_pos hba] at h12
        exact absurd h12 (by simp)
      · rw [if_neg hab, if_neg hba] at h12
        rw [if_neg hba, if_neg hab] at h21
        rw [charToNat_inj (by omega : a.toNat = b.toNat),
          charListLE_antisymm as bs h12 h21]

/-- The string order used by the canonicalizer's sorts (Go's `<` on strings,
as a reflexive comparison). -/
def strLE (a b : String) : Prop := charListLE a.data b.data = true

instance : DecidableRel strLE := fun a b => by unfold strLE; infer_instance

instance : IsTotal String strLE := ⟨fun a b => charListLE_total a.data b.data⟩

instance : IsTrans String strLE := ⟨fun a b c => charListLE_trans a.data b.data c.data⟩

/-- The definition `strLE` is antisymmetric. -/
theorem strLE_antisymm {a b : String} (h1 : strLE a b) (h2 : strLE b a) : a = b :=
  String.ext (charListLE_antisymm a.data b.data h1 h2)

/-! ## Request data model (`exposure_model.go`) -/

/-- The definition `ExposureKey`: one client-reported key.  `key` is the base64-encoded key
material; `intervalNumber` and `intervalCount` are Go `int32`;
`transmissionRisk` is a Go `int`. -/
structure ExposureKey where
  key : String
  intervalNumber : Int
  intervalCount : Int
  transmissionRisk : Int
deriving DecidableEq

/-- The definition `Publish`: the body of the publish API call. -/
structure Publish where
  keys : List ExposureKey
  regions : List String
  appPackageName : String
  platform : String
  deviceVerificationPayload : String
  verificationPayload : String
  padding : String
deriving DecidableEq

/-- The definition `Exposure`: the record as stored in the database. -/
structure Exposure where
  exposureKey : List Nat
  transmissionRisk : Int
  appPackageName : String
  regions : List String
  intervalNumber : Int
  intervalCount : Int
  createdAt : Int
  localProvenance : Bool
  federationSyncID : Int
deriving DecidableEq

/-- The definition `maxKeysPerPublish = 21`. -/
def maxKeysPerPublish : Int := 21

/-- The definition `KeyLength = 16`: the only valid decoded key length. -/
def KeyLength : Nat := 16

/-- The definition `MinTransmissionRisk = 0`. -/
def MinTransmissionRisk : Int := 0

/-- The definition `MaxTransmissionRisk = 8`. -/
def MaxTransmissionRisk : Int := 8

/-- The definition `MinIntervalCount = 1`. -/
def MinIntervalCount : Int := 1

/-- The definition `MaxIntervalCount = 144`. -/
def MaxIntervalCount : Int := 144

/-! ## The canonicalizer: `Publish.AndroidNonce` -/

/-- The comparison `sortedKeys[i].Key < sortedKeys[j].Key` used by
`sort.Slice` in `AndroidNonce`, as its reflexive closure (the form a stable
insertion sort consumes). -/
def keyLE (a b : ExposureKey) : Prop := strLE a.key b.key

instance : DecidableRel keyLE := fun a b => by unfold keyLE; infer_instance

instance : IsTotal ExposureKey keyLE := ⟨fun a b => charListLE_total a.key.data b.key.data⟩

instance : IsTrans ExposureKey keyLE :=
  ⟨fun a b c h1 h2 => charListLE_trans a.key.data b.key.data c.key.data h1 h2⟩

/-- The definition `fmt.Sprintf("%v.%v.%v.%v", k.Key, k.IntervalNumber, k.IntervalCount,
k.TransmissionRisk)`. -/
def renderKey (k : ExposureKey) : String :=
  k.key ++ "." ++ toString k.intervalNumber ++ "." ++ toString k.intervalCount ++
    "." ++ toString k.transmissionRisk

/-- The definition `Publish.AndroidNonce`: sort the keys by their base64 `Key` strings, sort
the upper-cased regions, render the cleartext
`appPackageName|key[,key]|region[,region]|verificationPayload`, and return
the standard base64 encoding of its SHA-256 checksum. -/
def Publish.AndroidNonce (p : Publish) : String :=
  let sortedKeys := List.insertionSort keyLE p.keys
  let sortedRegions := List.insertionSort strLE (p.regions.map strToUpper)
  let keys := sortedKeys.map renderKey
  let cleartext := p.appPackageName ++ "|" ++ String.intercalate "," keys ++ "|" ++
    String.intercalate "," sortedRegions ++ "|" ++ p.verificationPayload
  base64Encode (sha256 (utf8Bytes cleartext))

/-! ## The interval clock -/

/-- The definition `t.UTC().Unix()`: whole seconds (rounded down) of a time given in
nanoseconds since the Unix epoch. -/
def unixSeconds (t : Int) : Int := t / 1000000000

/-- The definition `IntervalNumber(t) = int32(t.UTC().Unix()) / int32(600)`: the Unix
seconds are first truncated to 32 bits, then divided by 600 with Go's
truncated (toward-zero) division. -/
def IntervalNumber (t : Int) : Int := Int.tdiv (toInt32 (unixSeconds t)) 600

/-- Nanoseconds between the Go zero time (January 1, year 1) and the Unix
epoch; `time.Truncate` rounds down since the zero time. -/
def unixToInternal : Int := 62135596800000000000

/-- The definition `TruncateWindow(t, d) = t.Truncate(d)`: round `t` down to a multiple of
`d` since the Go zero time (no-op for `d ≤ 0`). -/
def TruncateWindow (t d : Int) : Int :=
  if d ≤ 0 then t else t - (t + unixToInternal) % d

/-! ## The transformer -/

/-- A configured `Publish -> []Exposure` transformer. -/
structure Transformer where
  maxExposureKeys : Int
  maxIntervalStartAge : Int
  truncateWindow : Int
deriving DecidableEq

/-- The definition `NewTransformer`: rejects a configuration with `maxExposureKeys < 0` or
`maxExposureKeys > maxKeysPerPublish` (its message text claims `> 0`). -/
def NewTransformer (maxExposureKeys maxIntervalStartAge truncateWindow : Int) :
    Except String Transformer :=
  if maxExposureKeys < 0 ∨ maxExposureKeys > maxKeysPerPublish then
    .error ("maxExposureKeys must be > 0 and <= " ++ toString maxKeysPerPublish ++
      ", got " ++ toString maxExposureKeys)
  else
    .ok ⟨maxExposureKeys, maxIntervalStartAge, truncateWindow⟩

/-- The error kinds `TransformExposureKey` can return, carrying the data the
source interpolates into its messages. -/
inductive KeyError
  | invalidKeyEncoding
  | invalidKeyLength (len : Nat)
  | invalidIntervalCount (ic : Int)
  | intervalTooOld (iv minIv : Int)
  | intervalInFuture (iv maxIv : Int)
  | keyStillValid (iv ic maxIv : Int)
  | invalidTransmissionRisk (tr : Int)
deriving DecidableEq

/-- The error kinds `TransformPublish` can return. -/
inductive PublishError
  | emptyKeySet
  | tooManyKeys (n : Nat) (maxAllowed : Int)
  | invalidPublishData (cause : KeyError)
  | misalignedOverlap (iv lastInterval nextInterval : Int)
deriving DecidableEq

/-- The definition `TransformExposureKey`: converts one key to an `Exposure`, validating the
decoded length, interval count, interval window, the "key still valid" rule
(skipped when the `SKIP_KEY_DATE_VALIDATION` environment variable parses to
true, here the explicit `skipKeyDateValidation` argument) and the
transmission risk.  The sum `IntervalNumber + IntervalCount` is a 32-bit
addition in the source. -/
def TransformExposureKey (skipKeyDateValidation : Bool) (exposureKey : ExposureKey)
    (appPackageName : String) (upcaseRegions : List String) (createdAt : Int)
    (minIntervalNumber maxIntervalNumber : Int) : Except KeyError Exposure :=
  match DecodeString exposureKey.key with
  | none => .error .invalidKeyEncoding
  | some binKey =>
    if binKey.length ≠ KeyLength then
      .error (.invalidKeyLength binKey.length)
    else if exposureKey.intervalCount < MinIntervalCount ∨
        exposureKey.intervalCount > MaxIntervalCount then
      .error (.invalidIntervalCount exposureKey.intervalCount)
    else if exposureKey.intervalNumber < minIntervalNumber then
      .error (.intervalTooOld exposureKey.intervalNumber minIntervalNumber)
    else if exposureKey.intervalNumber ≥ maxIntervalNumber then
      .error (.intervalInFuture exposureKey.intervalNumber maxIntervalNumber)
    else if skipKeyDateValidation = false ∧
        toInt32 (exposureKey.intervalNumber + exposureKey.intervalCount) > maxIntervalNumber then
      .error (.keyStillValid exposureKey.intervalNumber exposureKey.intervalCount
        maxIntervalNumber)
    else if exposureKey.transmissionRisk < MinTransmissionRisk ∨
        exposureKey.transmissionRisk > MaxTransmissionRisk then
      .error (.invalidTransmissionRisk exposureKey.transmissionRisk)
    else
      .ok ⟨binKey, exposureKey.transmissionRisk, appPackageName, upcaseRegions,
        exposureKey.intervalNumber, exposureKey.intervalCount, createdAt, true, 0⟩

/-- The per-key loop of `TransformPublish`: transform every key, stopping at
the first error. -/
def transformKeys (skipKeyDateValidation : Bool) (keys : List ExposureKey)
    (appPackageName : String) (upcaseRegions : List String) (createdAt : Int)
    (minIntervalNumber maxIntervalNumber : Int) : Except KeyError (List Exposure) :=
  match keys with
  | [] => .ok []
  | k :: rest =>
    match TransformExposureKey skipKeyDateValidation k appPackageName upcaseRegions
        createdAt minIntervalNumber maxIntervalNumber with
    | .error e => .error e
    | .ok exposure =>
      match transformKeys skipKeyDateValidation rest appPackageName upcaseRegions
          createdAt minIntervalNumber maxIntervalNumber with
      | .error e => .error e
      | .ok rest2 => .ok (exposure :: rest2)

/-- The ordering `sort.Slice` applies to the transformed records: ascending
`IntervalNumber` with `IntervalCount` as tiebreaker (reflexive closure of the
source's strict comparison). -/
def entLE (a b : Exposure) : Prop :=
  a.intervalNumber < b.intervalNumber ∨
    (a.intervalNumber = b.intervalNumber ∧ a.intervalCount ≤ b.intervalCount)

instance : DecidableRel entLE := fun a b => by unfold entLE; infer_instance

instance : IsTotal Exposure entLE :=
  ⟨fun a b => by
    unfold entLE
    rcases lt_trichotomy a.intervalNumber b.intervalNumber with h | h | h
    · exact Or.inl (Or.inl h)
    · rcases le_total a.intervalCount b.intervalCount with h2 | h2
      · exact Or.inl (Or.inr ⟨h, h2⟩)
      · exact Or.inr (Or.inr ⟨h.symm, h2⟩)
    · exact Or.inr (Or.inl h)⟩

instance : IsTrans Exposure entLE :=
  ⟨fun a b c h1 h2 => by
    unfold entLE at *
    rcases h1 with h1 | ⟨h1e, h1c⟩ <;> rcases h2 with h2 | ⟨h2e, h2c⟩
    · exact Or.inl (h1.trans h2)
    · exact Or.inl (h2e ▸ h1)
    · exact Or.inl (h1e ▸ h2)
    · exact Or.inr ⟨h1e.trans h2e, h1c.trans h2c⟩⟩

/-- The overlap scan of `TransformPublish` over the sorted records: a record
sharing `lastInterval` extends `nextInterval`; a record starting strictly
inside the previous coverage is a misaligned overlap; otherwise both markers
advance.  `startIntervals` is the running count of start intervals the source
keeps alongside the scan. -/
def overlapScan (startIntervals : Int → Nat) (lastInterval nextInterval : Int) :
    List Exposure → Except PublishError Unit
  | [] => .ok ()
  | ex :: rest =>
    let startIntervals2 := fun i =>
      if i = ex.intervalNumber then startIntervals i + 1 else startIntervals i
    if ex.intervalNumber = lastInterval then
      overlapScan startIntervals2 lastInterval
        (toInt32 (ex.intervalNumber + ex.intervalCount)) rest
    else if ex.intervalNumber < nextInterval then
      .error (.misalignedOverlap ex.intervalNumber lastInterval nextInterval)
    else
      overlapScan startIntervals2 ex.intervalNumber
        (toInt32 (ex.intervalNumber + ex.intervalCount)) rest

/-- The definition `Transformer.TransformPublish`: validate the key count, transform every
key (wrapping the first failure in `invalidPublishData`), sort by
`(IntervalNumber, IntervalCount)` and run the overlap scan; on success return
the sorted records.  The empty branch after sorting is unreachable (the key
list was checked non-empty). -/
def Transformer.TransformPublish (t : Transformer) (skipKeyDateValidation : Bool)
    (inData : Publish) (batchTime : Int) : Except PublishError (List Exposure) :=
  if inData.keys.length = 0 then
    .error .emptyKeySet
  else if (inData.keys.length : Int) > t.maxExposureKeys then
    .error (.tooManyKeys inData.keys.length t.maxExposureKeys)
  else
    let createdAt := TruncateWindow batchTime t.truncateWindow
    let minIntervalNumber := IntervalNumber (batchTime + (-1) * t.maxIntervalStartAge)
    let maxIntervalNumber := IntervalNumber batchTime
    let upcaseRegions := inData.regions.map strToUpper
    match transformKeys skipKeyDateValidation inData.keys inData.appPackageName
        upcaseRegions createdAt minIntervalNumber maxIntervalNumber with
    | .error e => .error (.invalidPublishData e)
    | .ok entities =>
      match List.insertionSort entLE entities with
      | [] => .ok []
      | e0 :: rest =>
        match overlapScan (fun _ => 0) e0.intervalNumber
            (toInt32 (e0.intervalNumber + e0.intervalCount)) (e0 :: rest) with
        | .error pe => .error pe
        | .ok _ => .ok (e0 :: rest)

/-! ## Helper lemmas -/

theorem except_isOk_iff {ε α : Type} (x : Except ε α) : x.isOk = true ↔ ∃ a, x = .ok a := by
  cases x <;> simp [Except.isOk, Except.toBool]

theorem except_isOk_false_iff {ε α : Type} (x : Except ε α) :
    x.isOk = false ↔ ∃ e, x = .error e := by
  cases x <;> simp [Except.isOk, Except.toBool]

theorem toInt32_bounds (n : Int) : -2147483648 ≤ toInt32 n ∧ toInt32 n < 2147483648 := by
  unfold toInt32
  have h1 := Int.emod_nonneg (n + 2147483648) (by norm_num : (4294967296 : Int) ≠ 0)
  have h2 := Int.emod_lt_of_pos (n + 2147483648) (by norm_num : (0 : Int) < 4294967296)
  omega

theorem toInt32_eq_self {n : Int} (h1 : -2147483648 ≤ n) (h2 : n < 2147483648) :
    toInt32 n = n := by
  unfold toInt32
  have h3 : (n + 2147483648) % 4294967296 = n + 2147483648 :=
    Int.emod_eq_of_lt (by omega) (by omega)
  omega

theorem IntervalNumber_bounds (t : Int) :
    -3579139 ≤ IntervalNumber t ∧ IntervalNumber t ≤ 3579139 := by
  unfold IntervalNumber
  have hb := toInt32_bounds (unixSeconds t)
  have habs : (toInt32 (unixSeconds t)).natAbs ≤ 2147483648 := by omega
  have h2 : ((toInt32 (unixSeconds t)).tdiv 600).natAbs
      = (toInt32 (unixSeconds t)).natAbs / (600 : Int).natAbs := Int.natAbs_tdiv _ _
  have h2b : ((600 : Int)).natAbs = 600 := rfl
  rw [h2b] at h2
  have h3 : (toInt32 (unixSeconds t)).natAbs / 600 ≤ 2147483648 / 600 :=
    Nat.div_le_div_right habs
  have h4 : (2147483648 : Nat) / 600 = 3579139 := by norm_num
  omega

theorem TransformExposureKey_ok (skip : Bool) (k : ExposureKey) (apn : String)
    (regs : List String) (cAt minI maxI : Int) (e : Exposure)
    (h : TransformExposureKey skip k apn regs cAt minI maxI = .ok e) :
    e.intervalNumber = k.intervalNumber ∧ e.intervalCount = k.intervalCount ∧
    e.transmissionRisk = k.transmissionRisk ∧ e.appPackageName = apn ∧
    e.regions = regs ∧ e.createdAt = cAt ∧ e.localProvenance = true ∧
    minI ≤ k.intervalNumber ∧ k.intervalNumber < maxI ∧
    1 ≤ k.intervalCount ∧ k.intervalCount ≤ 144 ∧
    (skip = false → toInt32 (k.intervalNumber + k.intervalCount) ≤ maxI) := by
  rcases hd : DecodeString k.key with _ | b
  · simp only [TransformExposureKey, hd] at h
    exact Except.noConfusion h
  · simp only [TransformExposureKey, hd] at h
    split_ifs at h with h1 h2 h3 h4 h5 h6
    all_goals try simp at h
    subst h
    push_neg at h2 h5
    simp only [MinIntervalCount, MaxIntervalCount] at h2
    exact ⟨rfl, rfl, rfl, rfl, rfl, rfl, rfl, by omega, by omega, by omega, by omega, h5⟩

theorem transformKeys_nil (skip : Bool) (apn : String) (regs : List String)
    (cAt minI maxI : Int) :
    transformKeys skip [] apn regs cAt minI maxI = .ok [] := rfl

theorem transformKeys_cons_ok (skip : Bool) (k : ExposureKey) (rest : List ExposureKey)
    (apn : String) (regs : List String) (cAt minI maxI : Int) (e : Exposure)
    (hk : TransformExposureKey skip k apn regs cAt minI maxI = .ok e) :
    transformKeys skip (k :: rest) apn regs cAt minI maxI =
      (transformKeys skip rest apn regs cAt minI maxI).map (fun es => e :: es) := by
  rcases hr : transformKeys skip rest apn regs cAt minI maxI with e2 | es2 <;>
    simp only [transformKeys, hk, hr, Except.map]

theorem transformKeys_ok_length (skip : Bool) (keys : List ExposureKey) (apn : String)
    (regs : List String) (cAt minI maxI : Int) (es : List Exposure)
    (h : transformKeys skip keys apn regs cAt minI maxI = .ok es) :
    es.length = keys.length := by
  induction keys generalizing es with
  | nil =>
    rw [transformKeys_nil] at h
    cases h
    rfl
  | cons k rest ih =>
    unfold transformKeys at h
    rcases hk : TransformExposureKey skip k apn regs cAt minI maxI with e2 | e
    · rw [hk] at h; exact Except.noConfusion h
    · rw [hk] at h
      rcases hr : transformKeys skip rest apn regs cAt minI maxI with e2 | rest2
      · rw [hr] at h; exact Except.noConfusion h
      · rw [hr] at h
        cases h
        simp [ih rest2 hr]

theorem transformKeys_ok_mem (skip : Bool) (keys : List ExposureKey) (apn : String)
    (regs : List String) (cAt minI maxI : Int) (es : List Exposure)
    (h : transformKeys skip keys apn regs cAt minI maxI = .ok es) :
    ∀ e ∈ es, ∃ k ∈ keys, TransformExposureKey skip k apn regs cAt minI maxI = .ok e := by
  induction keys generalizing es with
  | nil =>
    rw [transformKeys_nil] at h
    cases h
    intro e he
    exact absurd he (by simp)
  | cons k rest ih =>
    unfold transformKeys at h
    rcases hk : TransformExposureKey skip k apn regs cAt minI maxI with e2 | e
    · rw [hk] at h; exact Except.noConfusion h
    · rw [hk] at h
      rcases hr : transformKeys skip rest apn regs cAt minI maxI with e2 | rest2
      · rw [hr] at h; exact Except.noConfusion h
      · rw [hr] at h
        cases h
        intro x hx
        rcases List.mem_cons.mp hx with rfl | hx2
        · exact ⟨k, by simp, hk⟩
        · rcases ih rest2 hr x hx2 with ⟨k2, hk2, hok⟩
          exact ⟨k2, by simp [hk2], hok⟩

theorem transformKeys_ok_of_forall (skip : Bool) (keys : List ExposureKey) (apn : String)
    (regs : List String) (cAt minI maxI : Int)
    (h : ∀ k ∈ keys, (TransformExposureKey skip k apn regs cAt minI maxI).isOk = true) :
    ∃ es, transformKeys skip keys apn regs cAt minI maxI = .ok es := by
  induction keys with
  | nil => exact ⟨[], rfl⟩
  | cons k rest ih =>
    rcases (except_isOk_iff _).mp (h k (by simp)) with ⟨e, he⟩
    rcases ih (fun k2 hk2 => h k2 (by simp [hk2])) with ⟨es, hes⟩
    exact ⟨e :: es, by rw [transformKeys_cons_ok skip k rest apn regs cAt minI maxI e he, hes]; rfl⟩

theorem transformKeys_error_of_mem (skip : Bool) (keys : List ExposureKey) (apn : String)
    (regs : List String) (cAt minI maxI : Int) (k : ExposureKey)
    (hk : k ∈ keys)
    (herr : (TransformExposureKey skip k apn regs cAt minI maxI).isOk = false) :
    ∃ e, transformKeys skip keys apn regs cAt minI maxI = .error e := by
  induction keys with
  | nil => exact absurd hk (by simp)
  | cons k0 rest ih =>
    unfold transformKeys
    rcases hk0 : TransformExposureKey skip k0 apn regs cAt minI maxI with e2 | e
    · exact ⟨e2, rfl⟩
    · rcases List.mem_cons.mp hk with rfl | hk2
      · rw [hk0] at herr
        exact absurd herr (by simp [Except.isOk, Except.toBool])
      · rcases ih hk2 with ⟨e2, he2⟩
        rw [he2]
        exact ⟨e2, rfl⟩

theorem transformKeys_first_error (skip : Bool) (pre : List ExposureKey)
    (k : ExposureKey) (post : List ExposureKey) (apn : String)
    (regs : List String) (cAt minI maxI : Int) (err : KeyError)
    (hpre : ∀ k2 ∈ pre, (TransformExposureKey skip k2 apn regs cAt minI maxI).isOk = true)
    (hk : TransformExposureKey skip k apn regs cAt minI maxI = .error err) :
    transformKeys skip (pre ++ k :: post) apn regs cAt minI maxI = .error err := by
  induction pre with
  | nil =>
    simp only [List.nil_append, transformKeys, hk]
  | cons k0 rest ih =>
    rcases (except_isOk_iff _).mp (hpre k0 (by simp)) with ⟨e, he⟩
    rw [List.cons_append, transformKeys_cons_ok skip k0 (rest ++ k :: post) apn regs cAt minI maxI e he,
      ih (fun k2 hk2 => hpre k2 (by simp [hk2]))]
    rfl

theorem overlapScan_ok_of_const (c : Int) :
    ∀ (l : List Exposure) (m : Int → Nat) (nxt : Int),
      (∀ e ∈ l, e.intervalNumber = c) → overlapScan m c nxt l = .ok () := by
  intro l
  induction l with
  | nil => intro m nxt _; rfl
  | cons x rest ih =>
    intro m nxt hall
    have hx : x.intervalNumber = c := hall x (by simp)
    unfold overlapScan
    rw [if_pos hx]
    exact ih _ _ (fun e he => hall e (by simp [he]))

theorem eq_of_perm_of_sorted_on {α : Type} {r : α → α → Prop} :
    ∀ (l₁ l₂ : List α), l₁.Perm l₂ →
      (∀ a ∈ l₁, ∀ b ∈ l₁, r a b → r b a → a = b) →
      l₁.Sorted r → l₂.Sorted r → l₁ = l₂
  | [], _, hp, _, _, _ => hp.nil_eq
  | a :: t₁, [], hp, _, _, _ => absurd hp (by simp)
  | a :: t₁, b :: t₂, hp, hanti, hs₁, hs₂ => by
    have hab : a = b := by
      by_contra hne
      have ha2 : a ∈ b :: t₂ := hp.mem_iff.mp (List.mem_cons_self a t₁)
      have hb1 : b ∈ a :: t₁ := hp.mem_iff.mpr (List.mem_cons_self b t₂)
      have hat2 : a ∈ t₂ := by
        rcases List.mem_cons.mp ha2 with h | h
        · exact absurd h hne
        · exact h
      have hbt1 : b ∈ t₁ := by
        rcases List.mem_cons.mp hb1 with h | h
        · exact absurd h.symm hne
        · exact h
      have hrab : r a b := (List.sorted_cons.mp hs₁).1 b hbt1
      have hrba : r b a := (List.sorted_cons.mp hs₂).1 a hat2
      exact hne (hanti a (List.mem_cons_self a t₁) b hb1 hrab hrba)
    subst hab
    have hp2 : t₁.Perm t₂ := (List.perm_cons a).mp hp
    have ht : t₁ = t₂ :=
      eq_of_perm_of_sorted_on t₁ t₂ hp2
        (fun x hx y hy => hanti x (List.mem_cons_of_mem a hx) y (List.mem_cons_of_mem a hy))
        (List.sorted_cons.mp hs₁).2 (List.sorted_cons.mp hs₂).2
    rw [ht]

theorem insertionSort_eq_of_perm_key {l₁ l₂ : List ExposureKey}
    (hp : l₁.Perm l₂)
    (hinj : ∀ a ∈ l₂, ∀ b ∈ l₂, a.key = b.key → a = b) :
    List.insertionSort keyLE l₁ = List.insertionSort keyLE l₂ := by
  apply eq_of_perm_of_sorted_on
  · exact ((List.perm_insertionSort keyLE l₁).trans hp).trans
      (List.perm_insertionSort keyLE l₂).symm
  · intro a ha b hb hab hba
    have ha2 : a ∈ l₂ := hp.mem_iff.mp ((List.mem_insertionSort keyLE).mp ha)
    have hb2 : b ∈ l₂ := hp.mem_iff.mp ((List.mem_insertionSort keyLE).mp hb)
    exact hinj a ha2 b hb2 (strLE_antisymm hab hba)
  · exact List.sorted_insertionSort keyLE l₁
  · exact List.sorted_insertionSort keyLE l₂

theorem insertionSort_eq_of_perm_str {l₁ l₂ : List String} (hp : l₁.Perm l₂) :
    List.insertionSort strLE l₁ = List.insertionSort strLE l₂ := by
  apply eq_of_perm_of_sorted_on
  · exact ((List.perm_insertionSort _ l₁).trans hp).trans (List.perm_insertionSort _ l₂).symm
  · exact fun a _ b _ hab hba => strLE_antisymm hab hba
  · exact List.sorted_insertionSort _ l₁
  · exact List.sorted_insertionSort _ l₂

theorem TransformPublish_eq (t : Transformer) (skip : Bool) (p : Publish) (bt : Int)
    (h0 : p.keys ≠ []) (h1 : (p.keys.length : Int) ≤ t.maxExposureKeys) :
    t.TransformPublish skip p bt =
      match transformKeys skip p.keys p.appPackageName (p.regions.map strToUpper)
          (TruncateWindow bt t.truncateWindow)
          (IntervalNumber (bt + (-1) * t.maxIntervalStartAge)) (IntervalNumber bt) with
      | .error e => .error (.invalidPublishData e)
      | .ok entities =>
        match List.insertionSort entLE entities with
        | [] => .ok []
        | e0 :: rest =>
          match overlapScan (fun _ => 0) e0.intervalNumber
              (toInt32 (e0.intervalNumber + e0.intervalCount)) (e0 :: rest) with
          | .error pe => .error pe
          | .ok _ => .ok (e0 :: rest) := by
  unfold Transformer.TransformPublish
  rw [if_neg (fun h => h0 (List.length_eq_zero.mp h)), if_neg (not_lt.mpr h1)]

/-! ## Claim C5: the nonce format -/

/-- From the spec's words (§4.2 step 3): a key rendered as
`<encodedKey>.<intervalNumber>.<intervalCount>.<transmissionRisk>`. -/
def specRenderKey (k : ExposureKey) : String :=
  k.key ++ "." ++ toString k.intervalNumber ++ "." ++ toString k.intervalCount ++
    "." ++ toString k.transmissionRisk

/-- From the spec's words: the keys sorted ascending by their transport-encoded
string value, rendered and joined by `,`. -/
def specJoinedKeys (p : Publish) : String :=
  String.intercalate "," ((List.insertionSort keyLE p.keys).map specRenderKey)

/-- From the spec's words: the regions upper-cased, sorted lexicographically,
joined by `,`. -/
def specJoinedRegions (p : Publish) : String :=
  String.intercalate "," (List.insertionSort strLE (p.regions.map strToUpper))

/-- From the spec's words (§4.2 step 4): exactly four fields joined by the
literal `|`, an absent field contributing the empty string. -/
def specCleartext (p : Publish) : String :=
  p.appPackageName ++ "|" ++ specJoinedKeys p ++ "|" ++ specJoinedRegions p ++ "|" ++
    p.verificationPayload

/-- Claim C5: `AndroidNonce` equals the standard padded base-64 encoding of the
SHA-256 digest of the UTF-8 bytes of the spec's cleartext
`<appPackageName>|<joinedKeys>|<joinedRegions>|<verificationPayload>`. -/
theorem C5_android_nonce_format (p : Publish) :
    p.AndroidNonce = base64Encode (sha256 (utf8Bytes (specCleartext p))) := rfl

/-! ## Claim C6: the interval clock -/

/-- From the spec's words: "floor of (Unix seconds of t divided by 600),
represented as a signed 32-bit integer". -/
def specIntervalNumber (t : Int) : Int := toInt32 (Int.fdiv (unixSeconds t) 600)

/-- Claim C6 counterexample: at Unix seconds `-601` (a time before the epoch)
the source computes `int32(-601)/600 = -1` (Go division truncates toward
zero) while the claimed floor is `-2`. -/
theorem C6_counterexample :
    IntervalNumber (-601000000000) ≠ specIntervalNumber (-601000000000) := by decide

/-- Claim C6 amended: `IntervalNumber(t)` is the 32-bit truncation of the Unix
seconds divided by 600 rounding toward zero; this agrees with the claimed
floor whenever the Unix seconds are in `[0, 2^31)`, and the function is total
(pure, never fails).  -/
theorem C6_interval_number_amended (t : Int)
    (h1 : 0 ≤ unixSeconds t) (h2 : unixSeconds t < 2147483648) :
    IntervalNumber t = specIntervalNumber t := by
  unfold IntervalNumber specIntervalNumber
  rw [toInt32_eq_self (by omega) h2]
  rw [Int.tdiv_eq_ediv h1 (by omega), Int.fdiv_eq_ediv _ (by omega)]
  have hnn : 0 ≤ unixSeconds t / 600 := Int.ediv_nonneg h1 (by omega)
  have hub : unixSeconds t / 600 ≤ unixSeconds t := Int.ediv_le_self _ h1
  rw [toInt32_eq_self (by omega) (by omega)]

/-- Claim C6 witness: June 1 2021 00:00:00 UTC (Unix seconds 1622505600) is in
range and `IntervalNumber` there is the floor 2704176. -/
theorem C6_witness :
    0 ≤ unixSeconds 1622505600000000000 ∧ unixSeconds 1622505600000000000 < 2147483648 ∧
    IntervalNumber 1622505600000000000 = specIntervalNumber 1622505600000000000 ∧
    IntervalNumber 1622505600000000000 = 2704176 :=
  ⟨by decide, by decide,
    C6_interval_number_amended 1622505600000000000 (by decide) (by decide), by decide⟩

/-! ## Claim C9: `NewTransformer` bounds -/

/-- Claim C9: `NewTransformer` fails exactly for `maxExposureKeys < 0` or
`> 21`; `maxExposureKeys = 0` is accepted (although the error message text
says the value "must be > 0"), and the resulting transformer rejects every
publish with at least one key through the too-many-keys branch. -/
theorem C9_new_transformer_zero (m a w : Int) :
    ((NewTransformer m a w).isOk = false ↔ m < 0 ∨ m > 21) ∧
    NewTransformer 0 a w = .ok ⟨0, a, w⟩ ∧
    NewTransformer (-1) a w = .error "maxExposureKeys must be > 0 and <= 21, got -1" ∧
    (∀ (p : Publish) (bt : Int) (skip : Bool), p.keys ≠ [] →
      Transformer.TransformPublish ⟨0, a, w⟩ skip p bt =
        .error (.tooManyKeys p.keys.length 0)) := by
  refine ⟨?_, ?_, ?_, ?_⟩
  · unfold NewTransformer maxKeysPerPublish
    split_ifs with h <;> simp [Except.isOk, Except.toBool] <;> omega
  · rfl
  · rfl
  · intro p bt skip hne
    have hpos : (0 : Int) < (p.keys.length : Int) := by
      exact_mod_cast Nat.pos_of_ne_zero (fun h => hne (List.length_eq_zero.mp h))
    unfold Transformer.TransformPublish
    dsimp only
    rw [if_neg (fun h => hne (List.length_eq_zero.mp h)), if_pos hpos]

/-- Claim C9 witness: with `maxExposureKeys = 0` a single-key publish is
rejected through the too-many-keys branch. -/
theorem C9_witness :
    (Publish.mk [⟨"AAAAAAAAAAAAAAAAAAAAAA==", 100, 1, 0⟩] [] "app" "android" "" "" "").keys ≠ [] ∧
    Transformer.TransformPublish ⟨0, 0, 0⟩ false
        (Publish.mk [⟨"AAAAAAAAAAAAAAAAAAAAAA==", 100, 1, 0⟩] [] "app" "android" "" "" "") 0 =
      .error (.tooManyKeys 1 0) :=
  ⟨by decide,
    (C9_new_transformer_zero 0 0 0).2.2.2
      (Publish.mk [⟨"AAAAAAAAAAAAAAAAAAAAAA==", 100, 1, 0⟩] [] "app" "android" "" "" "") 0 false
      (by decide)⟩

/-! ## Claim C1: nonce invariance under permutation -/

/-- Claim C1 amended: permuting the keys and the regions of a `Publish` leaves
`AndroidNonce` unchanged, provided any two keys sharing the same encoded
`Key` string are entirely equal (ties in the `Key`-string sort are otherwise
placed in input order and can change the cleartext). -/
theorem C1_android_nonce_perm_invariant (p : Publish) (keys2 : List ExposureKey)
    (regions2 : List String) (hk : keys2.Perm p.keys) (hr : regions2.Perm p.regions)
    (hinj : ∀ a ∈ p.keys, ∀ b ∈ p.keys, a.key = b.key → a = b) :
    Publish.AndroidNonce ⟨keys2, regions2, p.appPackageName, p.platform,
      p.deviceVerificationPayload, p.verificationPayload, p.padding⟩ = p.AndroidNonce := by
  unfold Publish.AndroidNonce
  dsimp only
  rw [insertionSort_eq_of_perm_key hk hinj, insertionSort_eq_of_perm_str (hr.map strToUpper)]

/-- Concrete publish for the C1 witness. -/
def pC1 : Publish :=
  ⟨[⟨"QQ==", 1, 1, 0⟩, ⟨"Qg==", 2, 1, 0⟩], ["us", "ca"], "app", "android", "", "vp", ""⟩

/-- Claim C1 witness: the invariance theorem applied to a concrete two-key,
two-region publish and a permutation of both lists. -/
theorem C1_witness :
    ([⟨"Qg==", 2, 1, 0⟩, ⟨"QQ==", 1, 1, 0⟩] : List ExposureKey).Perm pC1.keys ∧
    (["ca", "us"] : List String).Perm pC1.regions ∧
    (∀ a ∈ pC1.keys, ∀ b ∈ pC1.keys, a.key = b.key → a = b) ∧
    Publish.AndroidNonce ⟨[⟨"Qg==", 2, 1, 0⟩, ⟨"QQ==", 1, 1, 0⟩], ["ca", "us"],
      pC1.appPackageName, pC1.platform, pC1.deviceVerificationPayload,
      pC1.verificationPayload, pC1.padding⟩ = pC1.AndroidNonce :=
  ⟨by decide, by decide, by decide,
    C1_android_nonce_perm_invariant pC1 _ _ (by decide) (by decide) (by decide)⟩

/-- First publish for the C1 counterexample: two keys with the same encoded
`Key` string but different interval numbers. -/
def pC1x : Publish := ⟨[⟨"QQ==", 1, 1, 0⟩, ⟨"QQ==", 2, 1, 0⟩], [], "a", "", "", "", ""⟩

/-- The same publish with the two keys swapped. -/
def pC1y : Publish := ⟨[⟨"QQ==", 2, 1, 0⟩, ⟨"QQ==", 1, 1, 0⟩], [], "a", "", "", "", ""⟩

/-- Claim C1 counterexample: the claim fails as stated — `pC1y` is `pC1x` with
its keys permuted (and regions/other fields identical), yet the nonces
differ, because the sort compares only the `Key` strings and leaves the two
tied keys in input order, producing different cleartexts. -/
theorem C1_counterexample :
    pC1y.keys.Perm pC1x.keys ∧ pC1y.regions.Perm pC1x.regions ∧
    pC1y.appPackageName = pC1x.appPackageName ∧ pC1y.platform = pC1x.platform ∧
    pC1y.deviceVerificationPayload = pC1x.deviceVerificationPayload ∧
    pC1y.verificationPayload = pC1x.verificationPayload ∧ pC1y.padding = pC1x.padding ∧
    pC1y.AndroidNonce ≠ pC1x.AndroidNonce := by
  refine ⟨by decide, by decide, rfl, rfl, rfl, rfl, rfl, by decide⟩

/-! ## Claim C8: determinism and the environment escape hatch -/

theorem TransformExposureKey_skip_indep (s1 s2 : Bool) (k : ExposureKey) (apn : String)
    (regs : List String) (cAt minI maxI : Int)
    (hk : toInt32 (k.intervalNumber + k.intervalCount) ≤ maxI) :
    TransformExposureKey s1 k apn regs cAt minI maxI =
      TransformExposureKey s2 k apn regs cAt minI maxI := by
  unfold TransformExposureKey
  rcases DecodeString k.key with _ | b
  · rfl
  · have hn1 : ¬(s1 = false ∧ toInt32 (k.intervalNumber + k.intervalCount) > maxI) :=
      fun h => absurd hk (not_le.mpr h.2)
    have hn2 : ¬(s2 = false ∧ toInt32 (k.intervalNumber + k.intervalCount) > maxI) :=
      fun h => absurd hk (not_le.mpr h.2)
    simp only [if_neg hn1, if_neg hn2]

theorem transformKeys_skip_indep (s1 s2 : Bool) (keys : List ExposureKey) (apn : String)
    (regs : List String) (cAt minI maxI : Int)
    (h : ∀ k ∈ keys, toInt32 (k.intervalNumber + k.intervalCount) ≤ maxI) :
    transformKeys s1 keys apn regs cAt minI maxI =
      transformKeys s2 keys apn regs cAt minI maxI := by
  induction keys with
  | nil => rfl
  | cons k rest ih =>
    unfold transformKeys
    rw [TransformExposureKey_skip_indep s1 s2 k apn regs cAt minI maxI (h k (by simp)),
      ih (fun k2 hk2 => h k2 (by simp [hk2]))]

/-- Claim C8 amended: `TransformExposureKey` and `TransformPublish` are
deterministic functions of their explicit arguments *and* the
`SKIP_KEY_DATE_VALIDATION` environment variable (modelled as the explicit
`skipKeyDateValidation` argument); the environment value can only matter for
a key whose (32-bit) end `intervalNumber + intervalCount` exceeds
`maxIntervalNumber` — for batches of fully-elapsed keys the results are
environment-independent. -/
theorem C8_deterministic_modulo_env (s1 s2 : Bool) (k : ExposureKey) (apn : String)
    (regs : List String) (cAt minI maxI : Int) (t : Transformer) (p : Publish) (bt : Int) :
    (toInt32 (k.intervalNumber + k.intervalCount) ≤ maxI →
      TransformExposureKey s1 k apn regs cAt minI maxI =
        TransformExposureKey s2 k apn regs cAt minI maxI) ∧
    ((∀ k2 ∈ p.keys, toInt32 (k2.intervalNumber + k2.intervalCount) ≤ IntervalNumber bt) →
      t.TransformPublish s1 p bt = t.TransformPublish s2 p bt) := by
  constructor
  · exact TransformExposureKey_skip_indep s1 s2 k apn regs cAt minI maxI
  · intro hall
    by_cases h0 : p.keys = []
    · unfold Transformer.TransformPublish
      rw [if_pos (by simp [h0]), if_pos (by simp [h0])]
    by_cases h1 : (p.keys.length : Int) ≤ t.maxExposureKeys
    · rw [TransformPublish_eq t s1 p bt h0 h1, TransformPublish_eq t s2 p bt h0 h1,
        transformKeys_skip_indep s1 s2 p.keys p.appPackageName (p.regions.map strToUpper)
          (TruncateWindow bt t.truncateWindow)
          (IntervalNumber (bt + (-1) * t.maxIntervalStartAge)) (IntervalNumber bt) hall]
    · unfold Transformer.TransformPublish
      rw [if_neg (fun h => h0 (List.length_eq_zero.mp h)),
        if_neg (fun h => h0 (List.length_eq_zero.mp h)),
        if_pos (not_le.mp h1), if_pos (not_le.mp h1)]

/-- Concrete key for the C8 theorems: its validity window is still open at
`maxIntervalNumber = 200`. -/
def kC8 : ExposureKey := ⟨"AAAAAAAAAAAAAAAAAAAAAA==", 100, 144, 0⟩

/-- Claim C8 counterexample: the claim fails as stated — `TransformExposureKey`
depends on ambient process state: with `SKIP_KEY_DATE_VALIDATION` set the
still-valid key `kC8` is accepted, with it unset the same arguments produce
an error. -/
theorem C8_counterexample :
    TransformExposureKey true kC8 "app" [] 0 0 200 ≠
      TransformExposureKey false kC8 "app" [] 0 0 200 := by decide

/-- Claim C8 witness: a fully elapsed key (window ends at 200 =
`maxIntervalNumber`) transforms identically under both environment
settings. -/
theorem C8_witness :
    toInt32 ((⟨"AAAAAAAAAAAAAAAAAAAAAA==", 100, 100, 0⟩ : ExposureKey).intervalNumber +
      (⟨"AAAAAAAAAAAAAAAAAAAAAA==", 100, 100, 0⟩ : ExposureKey).intervalCount) ≤ 200 ∧
    TransformExposureKey true ⟨"AAAAAAAAAAAAAAAAAAAAAA==", 100, 100, 0⟩ "app" [] 0 0 200 =
      TransformExposureKey false ⟨"AAAAAAAAAAAAAAAAAAAAAA==", 100, 100, 0⟩ "app" [] 0 0 200 :=
  ⟨by decide,
    (C8_deterministic_modulo_env true false ⟨"AAAAAAAAAAAAAAAAAAAAAA==", 100, 100, 0⟩ "app" []
      0 0 200 ⟨21, 0, 0⟩ ⟨[], [], "", "", "", "", ""⟩ 0).1 (by decide)⟩

/-! ## Claim C3: the per-key validation conditions -/

/-- Claim C3 amended: with the still-valid bypass at its default (enforced),
`TransformExposureKey` returns an error iff the key fails to decode, or the
decoded length is not 16, or `intervalCount` is outside `[1,144]`, or
`intervalNumber < minIntervalNumber`, or `intervalNumber ≥
maxIntervalNumber`, or the *32-bit wrapped* sum `intervalNumber +
intervalCount` exceeds `maxIntervalNumber` (the source adds two `int32`
values, so the claim's mathematical sum is wrong for keys near `2^31`), or
`transmissionRisk` is outside `[0,8]`; the checks run in this order. -/
theorem C3_error_conditions (k : ExposureKey) (apn : String) (regs : List String)
    (cAt minI maxI : Int) :
    (TransformExposureKey false k apn regs cAt minI maxI).isOk = false ↔
      (DecodeString k.key = none ∨
       (∃ b, DecodeString k.key = some b ∧ b.length ≠ KeyLength) ∨
       k.intervalCount < MinIntervalCount ∨ k.intervalCount > MaxIntervalCount ∨
       k.intervalNumber < minI ∨ k.intervalNumber ≥ maxI ∨
       toInt32 (k.intervalNumber + k.intervalCount) > maxI ∨
       k.transmissionRisk < MinTransmissionRisk ∨ k.transmissionRisk > MaxTransmissionRisk) := by
  rcases hd : DecodeString k.key with _ | b
  · simp [TransformExposureKey, hd, Except.isOk, Except.toBool]
  · simp only [TransformExposureKey, hd, MinIntervalCount, MaxIntervalCount,
      MinTransmissionRisk, MaxTransmissionRisk, KeyLength]
    split_ifs with h1 h2 h3 h4 h5 h6 <;>
      simp_all [Except.isOk, Except.toBool, KeyLength]
    tauto

/-- Concrete key for the C3 counterexample: interval window
`[2147483646, 2147483646 + 144)` wraps past `2^31` as `int32`. -/
def kC3 : ExposureKey := ⟨"AAAAAAAAAAAAAAAAAAAAAA==", 2147483646, 144, 0⟩

/-- Claim C3 counterexample: the claim as stated is false — this key has
`intervalNumber + intervalCount > maxIntervalNumber` (its validity window
has not elapsed), so per the claim the transform must return an error, yet
the source accepts it: the `int32` sum wraps to a negative value and the
still-valid check passes. -/
theorem C3_counterexample :
    (TransformExposureKey false kC3 "app" [] 0 0 2147483647).isOk = true ∧
    kC3.intervalNumber + kC3.intervalCount > 2147483647 := by
  constructor
  · decide
  · decide

/-! ## Structure of successful `TransformPublish` runs -/

theorem TransformPublish_ok_inversion (t : Transformer) (skip : Bool) (p : Publish)
    (bt : Int) (l : List Exposure) (h : t.TransformPublish skip p bt = .ok l) :
    ∃ es, transformKeys skip p.keys p.appPackageName (p.regions.map strToUpper)
        (TruncateWindow bt t.truncateWindow)
        (IntervalNumber (bt + (-1) * t.maxIntervalStartAge)) (IntervalNumber bt) = .ok es ∧
      l.Perm es ∧ l = List.insertionSort entLE es := by
  by_cases h0 : p.keys = []
  · rw [Transformer.TransformPublish, if_pos (by simp [h0])] at h
    exact Except.noConfusion h
  by_cases h1 : (p.keys.length : Int) ≤ t.maxExposureKeys
  · rw [TransformPublish_eq t skip p bt h0 h1] at h
    rcases htk : transformKeys skip p.keys p.appPackageName (p.regions.map strToUpper)
        (TruncateWindow bt t.truncateWindow)
        (IntervalNumber (bt + (-1) * t.maxIntervalStartAge)) (IntervalNumber bt) with e | es
    · rw [htk] at h
      exact Except.noConfusion h
    · rw [htk] at h
      dsimp only at h
      refine ⟨es, rfl, ?_⟩
      rcases hsort : List.insertionSort entLE es with _ | ⟨e0, rest⟩
      · rw [hsort] at h
        dsimp only at h
        cases h
        have hes : es = [] := by
          have hp2 := List.perm_insertionSort entLE es
          rw [hsort] at hp2
          exact hp2.nil_eq.symm
        simp [hes]
      · rw [hsort] at h
        dsimp only at h
        rcases hscan : overlapScan (fun _ => 0) e0.intervalNumber
            (toInt32 (e0.intervalNumber + e0.intervalCount)) (e0 :: rest) with pe | u
        · rw [hscan] at h
          exact Except.noConfusion h
        · rw [hscan] at h
          cases h
          refine ⟨?_, rfl⟩
          rw [← hsort]
          exact List.perm_insertionSort entLE es
  · rw [Transformer.TransformPublish, if_neg (fun hh => h0 (List.length_eq_zero.mp hh)),
      if_pos (not_le.mp h1)] at h
    exact Except.noConfusion h

/-! ## Claim C4: the batch is all-or-nothing -/

/-- Claim C4: `TransformPublish` is all-or-nothing.  An empty key list yields
the empty-key-set error; a list longer than `maxExposureKeys` yields the
too-many-keys error; the first per-key failure (all keys before it
transforming cleanly) aborts the whole batch, wrapped in
`invalidPublishData`; a batch containing any failing key never returns a
record list; and a successful run returns one record per submitted key,
never a partial set. -/
theorem C4_all_or_nothing (t : Transformer) (skip : Bool) (p : Publish) (bt : Int) :
    (p.keys = [] → t.TransformPublish skip p bt = .error .emptyKeySet) ∧
    (p.keys ≠ [] → (p.keys.length : Int) > t.maxExposureKeys →
      t.TransformPublish skip p bt = .error (.tooManyKeys p.keys.length t.maxExposureKeys)) ∧
    (∀ pre k post err, p.keys = pre ++ k :: post →
      (∀ k2 ∈ pre, (TransformExposureKey skip k2 p.appPackageName (p.regions.map strToUpper)
        (TruncateWindow bt t.truncateWindow)
        (IntervalNumber (bt + (-1) * t.maxIntervalStartAge)) (IntervalNumber bt)).isOk = true) →
      TransformExposureKey skip k p.appPackageName (p.regions.map strToUpper)
        (TruncateWindow bt t.truncateWindow)
        (IntervalNumber (bt + (-1) * t.maxIntervalStartAge)) (IntervalNumber bt) = .error err →
      (p.keys.length : Int) ≤ t.maxExposureKeys →
      t.TransformPublish skip p bt = .error (.invalidPublishData err)) ∧
    ((∃ k ∈ p.keys, (TransformExposureKey skip k p.appPackageName (p.regions.map strToUpper)
        (TruncateWindow bt t.truncateWindow)
        (IntervalNumber (bt + (-1) * t.maxIntervalStartAge)) (IntervalNumber bt)).isOk = false) →
      ∀ l, t.TransformPublish skip p bt ≠ .ok l) ∧
    (∀ l, t.TransformPublish skip p bt = .ok l → l.length = p.keys.length) := by
  refine ⟨?_, ?_, ?_, ?_, ?_⟩
  · intro h0
    rw [Transformer.TransformPublish, if_pos (by simp [h0])]
  · intro h0 h1
    rw [Transformer.TransformPublish, if_neg (fun hh => h0 (List.length_eq_zero.mp hh)),
      if_pos h1]
  · intro pre k post err hsplit hpre hk h1
    have h0 : p.keys ≠ [] := by
      rw [hsplit]
      rcases pre with _ | ⟨a, as⟩ <;> simp
    rw [TransformPublish_eq t skip p bt h0 h1, hsplit,
      transformKeys_first_error skip pre k post p.appPackageName (p.regions.map strToUpper)
        (TruncateWindow bt t.truncateWindow)
        (IntervalNumber (bt + (-1) * t.maxIntervalStartAge)) (IntervalNumber bt) err hpre hk]
  · rintro ⟨k, hk, hfail⟩ l hok
    obtain ⟨es, htk, -, -⟩ := TransformPublish_ok_inversion t skip p bt l hok
    obtain ⟨err, herr⟩ := transformKeys_error_of_mem skip p.keys p.appPackageName
      (p.regions.map strToUpper) (TruncateWindow bt t.truncateWindow)
      (IntervalNumber (bt + (-1) * t.maxIntervalStartAge)) (IntervalNumber bt) k hk hfail
    rw [htk] at herr
    exact Except.noConfusion herr
  · intro l hok
    obtain ⟨es, htk, hperm, -⟩ := TransformPublish_ok_inversion t skip p bt l hok
    rw [hperm.length_eq,
      transformKeys_ok_length skip p.keys p.appPackageName (p.regions.map strToUpper)
        (TruncateWindow bt t.truncateWindow)
        (IntervalNumber (bt + (-1) * t.maxIntervalStartAge)) (IntervalNumber bt) es htk]

/-! ## Claim C7: shape of a successful batch -/

/-- Claim C7: a successful `TransformPublish` returns exactly one record per
submitted key, and every record carries `createdAt = TruncateWindow(batchTime,
truncateWindow)`, the upper-cased request regions, the request's
`appPackageName`, and `localProvenance = true`. -/
theorem C7_success_record_shape (t : Transformer) (skip : Bool) (p : Publish) (bt : Int)
    (l : List Exposure) (h : t.TransformPublish skip p bt = .ok l) :
    l.length = p.keys.length ∧
    ∀ e ∈ l, e.createdAt = TruncateWindow bt t.truncateWindow ∧
      e.regions = p.regions.map strToUpper ∧
      e.appPackageName = p.appPackageName ∧ e.localProvenance = true := by
  obtain ⟨es, htk, hperm, -⟩ := TransformPublish_ok_inversion t skip p bt l h
  constructor
  · rw [hperm.length_eq,
      transformKeys_ok_length skip p.keys p.appPackageName (p.regions.map strToUpper)
        (TruncateWindow bt t.truncateWindow)
        (IntervalNumber (bt + (-1) * t.maxIntervalStartAge)) (IntervalNumber bt) es htk]
  · intro e he
    obtain ⟨k, -, hok⟩ := transformKeys_ok_mem skip p.keys p.appPackageName
      (p.regions.map strToUpper) (TruncateWindow bt t.truncateWindow)
      (IntervalNumber (bt + (-1) * t.maxIntervalStartAge)) (IntervalNumber bt) es htk e
      (hperm.subset he)
    obtain ⟨-, -, -, hapn, hregs, hcat, hlp, -⟩ :=
      TransformExposureKey_ok skip k p.appPackageName (p.regions.map strToUpper)
        (TruncateWindow bt t.truncateWindow)
        (IntervalNumber (bt + (-1) * t.maxIntervalStartAge)) (IntervalNumber bt) e hok
    exact ⟨hcat, hregs, hapn, hlp⟩

/-! ## Claim C10: no cap on same-start keys -/

/-- Claim C10: a batch of any size `n` with `1 ≤ n ≤ maxExposureKeys` whose
keys all pass per-key validation and all share one start interval is
accepted; the running count of start intervals the scan keeps is never
consulted by any check. -/
theorem C10_same_start_accepted (t : Transformer) (skip : Bool) (p : Publish) (bt : Int)
    (c : Int) (h0 : p.keys ≠ []) (h1 : (p.keys.length : Int) ≤ t.maxExposureKeys)
    (hok : ∀ k ∈ p.keys, (TransformExposureKey skip k p.appPackageName
      (p.regions.map strToUpper) (TruncateWindow bt t.truncateWindow)
      (IntervalNumber (bt + (-1) * t.maxIntervalStartAge)) (IntervalNumber bt)).isOk = true)
    (hsame : ∀ k ∈ p.keys, k.intervalNumber = c) :
    (t.TransformPublish skip p bt).isOk = true := by
  obtain ⟨es, htk⟩ := transformKeys_ok_of_forall skip p.keys p.appPackageName
    (p.regions.map strToUpper) (TruncateWindow bt t.truncateWindow)
    (IntervalNumber (bt + (-1) * t.maxIntervalStartAge)) (IntervalNumber bt) hok
  have hes : ∀ e ∈ es, e.intervalNumber = c := by
    intro e he
    obtain ⟨k, hk, hokk⟩ := transformKeys_ok_mem skip p.keys p.appPackageName
      (p.regions.map strToUpper) (TruncateWindow bt t.truncateWindow)
      (IntervalNumber (bt + (-1) * t.maxIntervalStartAge)) (IntervalNumber bt) es htk e he
    obtain ⟨hn, -⟩ := TransformExposureKey_ok skip k p.appPackageName
      (p.regions.map strToUpper) (TruncateWindow bt t.truncateWindow)
      (IntervalNumber (bt + (-1) * t.maxIntervalStartAge)) (IntervalNumber bt) e hokk
    rw [hn]
    exact hsame k hk
  rw [TransformPublish_eq t skip p bt h0 h1, htk]
  dsimp only
  rcases hsort : List.insertionSort entLE es with _ | ⟨e0, rest⟩
  · rfl
  · have hmem : ∀ e ∈ e0 :: rest, e.intervalNumber = e0.intervalNumber := by
      intro e he
      have he2 : e ∈ es := by
        have : e ∈ List.insertionSort entLE es := by rw [hsort]; exact he
        exact (List.mem_insertionSort entLE).mp this
      have h00 : e0 ∈ es := by
        have : e0 ∈ List.insertionSort entLE es := by
          rw [hsort]; exact List.mem_cons_self e0 rest
        exact (List.mem_insertionSort entLE).mp this
      rw [hes e he2, hes e0 h00]
    dsimp only
    rw [overlapScan_ok_of_const e0.intervalNumber (e0 :: rest) (fun _ => 0)
      (toInt32 (e0.intervalNumber + e0.intervalCount)) hmem]
    rfl

/-! ## Claim C2: the overlap rule on a sorted pair -/

/-- Claim C2: for a two-key batch whose keys both pass per-key validation,
taken in ascending `(intervalNumber, intervalCount)` order: identical start
intervals are accepted; `X < Y < X + countX` is rejected with the
misaligned-overlap error naming the conflicting boundaries; and a second key
starting at or after the end of the first key's coverage is accepted. -/
theorem C2_overlap_pair (t : Transformer) (bt : Int) (p : Publish)
    (k1 k2 : ExposureKey) (e1 e2 : Exposure)
    (hkeys : p.keys = [k1, k2])
    (hmax : 2 ≤ t.maxExposureKeys)
    (h1 : TransformExposureKey false k1 p.appPackageName (p.regions.map strToUpper)
      (TruncateWindow bt t.truncateWindow)
      (IntervalNumber (bt + (-1) * t.maxIntervalStartAge)) (IntervalNumber bt) = .ok e1)
    (h2 : TransformExposureKey false k2 p.appPackageName (p.regions.map strToUpper)
      (TruncateWindow bt t.truncateWindow)
      (IntervalNumber (bt + (-1) * t.maxIntervalStartAge)) (IntervalNumber bt) = .ok e2) :
    (k1.intervalNumber = k2.intervalNumber →
      (t.TransformPublish false p bt).isOk = true) ∧
    (k1.intervalNumber < k2.intervalNumber →
      k2.intervalNumber < k1.intervalNumber + k1.intervalCount →
      t.TransformPublish false p bt =
        .error (.misalignedOverlap k2.intervalNumber k1.intervalNumber
          (k1.intervalNumber + k1.intervalCount))) ∧
    (k1.intervalNumber < k2.intervalNumber →
      k1.intervalNumber + k1.intervalCount ≤ k2.intervalNumber →
      (t.TransformPublish false p bt).isOk = true) := by
  obtain ⟨e1n, e1c, -, -, -, -, -, hmin1, hmax1, hc1lo, hc1hi, -⟩ :=
    TransformExposureKey_ok false k1 p.appPackageName (p.regions.map strToUpper)
      (TruncateWindow bt t.truncateWindow)
      (IntervalNumber (bt + (-1) * t.maxIntervalStartAge)) (IntervalNumber bt) e1 h1
  obtain ⟨e2n, e2c, -, -, -, -, -, hmin2, hmax2, hc2lo, hc2hi, -⟩ :=
    TransformExposureKey_ok false k2 p.appPackageName (p.regions.map strToUpper)
      (TruncateWindow bt t.truncateWindow)
      (IntervalNumber (bt + (-1) * t.maxIntervalStartAge)) (IntervalNumber bt) e2 h2
  have hbmax := IntervalNumber_bounds bt
  have hbmin := IntervalNumber_bounds (bt + (-1) * t.maxIntervalStartAge)
  have hw1 : toInt32 (k1.intervalNumber + k1.intervalCount) =
      k1.intervalNumber + k1.intervalCount := toInt32_eq_self (by omega) (by omega)
  have hw2 : toInt32 (k2.intervalNumber + k2.intervalCount) =
      k2.intervalNumber + k2.intervalCount := toInt32_eq_self (by omega) (by omega)
  have h0 : p.keys ≠ [] := by rw [hkeys]; simp
  have hlen : (p.keys.length : Int) ≤ t.maxExposureKeys := by
    rw [hkeys]
    simpa using hmax
  have htk : transformKeys false p.keys p.appPackageName (p.regions.map strToUpper)
      (TruncateWindow bt t.truncateWindow)
      (IntervalNumber (bt + (-1) * t.maxIntervalStartAge)) (IntervalNumber bt) =
      .ok [e1, e2] := by
    rw [hkeys, transformKeys_cons_ok _ _ _ _ _ _ _ _ _ h1,
      transformKeys_cons_ok _ _ _ _ _ _ _ _ _ h2, transformKeys_nil]
    rfl
  have hTP := TransformPublish_eq t false p bt h0 hlen
  rw [htk] at hTP
  dsimp only at hTP
  refine ⟨?_, ?_, ?_⟩
  · intro heq
    have hsame : ∀ e ∈ [e1, e2], e.intervalNumber = k1.intervalNumber := by
      intro e he
      rcases List.mem_cons.mp he with rfl | he2
      · exact e1n
      · rcases List.mem_cons.mp he2 with rfl | he3
        · rw [e2n, heq]
        · exact absurd he3 (by simp)
    rcases hsort : List.insertionSort entLE [e1, e2] with _ | ⟨e0, rest⟩
    · rw [hsort] at hTP
      dsimp only at hTP
      rw [hTP]
      rfl
    · rw [hsort] at hTP
      dsimp only at hTP
      have hmem : ∀ e ∈ e0 :: rest, e.intervalNumber = e0.intervalNumber := by
        intro e he
        have he2 : e ∈ [e1, e2] := by
          have hh : e ∈ List.insertionSort entLE [e1, e2] := by rw [hsort]; exact he
          exact (List.mem_insertionSort entLE).mp hh
        have h00 : e0 ∈ [e1, e2] := by
          have hh : e0 ∈ List.insertionSort entLE [e1, e2] := by
            rw [hsort]; exact List.mem_cons_self e0 rest
          exact (List.mem_insertionSort entLE).mp hh
        rw [hsame e he2, hsame e0 h00]
      rw [overlapScan_ok_of_const e0.intervalNumber (e0 :: rest) (fun _ => 0)
        (toInt32 (e0.intervalNumber + e0.intervalCount)) hmem] at hTP
      dsimp only at hTP
      rw [hTP]
      rfl
  · intro hlt hov
    have hle : entLE e1 e2 := Or.inl (by rw [e1n, e2n]; exact hlt)
    have hsort : List.insertionSort entLE [e1, e2] = [e1, e2] := by
      simp [List.insertionSort, List.orderedInsert, if_pos hle]
    rw [hsort] at hTP
    dsimp only at hTP
    have hne : ¬(e2.intervalNumber = e1.intervalNumber) := by
      rw [e1n, e2n]
      omega
    have hscan : overlapScan (fun _ => 0) e1.intervalNumber
        (toInt32 (e1.intervalNumber + e1.intervalCount)) [e1, e2] =
        .error (.misalignedOverlap e2.intervalNumber e1.intervalNumber
          (toInt32 (e1.intervalNumber + e1.intervalCount))) := by
      unfold overlapScan
      rw [if_pos rfl]
      unfold overlapScan
      rw [if_neg hne, if_pos (by rw [e1n, e1c, e2n, hw1]; exact hov)]
    rw [hscan] at hTP
    dsimp only at hTP
    rw [hTP, e1n, e1c, e2n, hw1]
  · intro hlt hge
    have hle : entLE e1 e2 := Or.inl (by rw [e1n, e2n]; exact hlt)
    have hsort : List.insertionSort entLE [e1, e2] = [e1, e2] := by
      simp [List.insertionSort, List.orderedInsert, if_pos hle]
    rw [hsort] at hTP
    dsimp only at hTP
    have hne : ¬(e2.intervalNumber = e1.intervalNumber) := by
      rw [e1n, e2n]
      omega
    have hscan : overlapScan (fun _ => 0) e1.intervalNumber
        (toInt32 (e1.intervalNumber + e1.intervalCount)) [e1, e2] = .ok () := by
      unfold overlapScan
      rw [if_pos rfl]
      unfold overlapScan
      rw [if_neg hne, if_neg (by rw [e1n, e1c, e2n, hw1]; omega)]
      rfl
    rw [hscan] at hTP
    dsimp only at hTP
    rw [hTP]
    rfl

/-! ## Concrete witnesses for the batch-level claims -/

/-- Transformer used by the C2 witness: 21 keys max, 14-day age window,
1-hour truncation. -/
def tC2 : Transformer := ⟨21, 1209600000000000, 3600000000000⟩

/-- Batch time for the C2/C7/C10 witnesses: 2021-06-01T00:00:00Z. -/
def btW : Int := 1622505600000000000

/-- C2 witness keys: same start interval 2704000, counts 100 and 120. -/
def kC2a : ExposureKey := ⟨"AAAAAAAAAAAAAAAAAAAAAA==", 2704000, 100, 3⟩

def kC2b : ExposureKey := ⟨"AAAAAAAAAAAAAAAAAAAAAA==", 2704000, 120, 3⟩

def pC2 : Publish := ⟨[kC2a, kC2b], ["us"], "app", "android", "", "", ""⟩

def eC2a : Exposure :=
  ⟨[0, 0, 0, 0, 0, 0, 0, 0, 0, 0, 0, 0, 0, 0, 0, 0], 3, "app", ["US"],
    2704000, 100, 1622505600000000000, true, 0⟩

def eC2b : Exposure :=
  ⟨[0, 0, 0, 0, 0, 0, 0, 0, 0, 0, 0, 0, 0, 0, 0, 0], 3, "app", ["US"],
    2704000, 120, 1622505600000000000, true, 0⟩

/-- Claim C2 witness: the pair theorem applied to two concrete same-start keys;
the batch is accepted. -/
theorem C2_witness :
    TransformExposureKey false kC2a pC2.appPackageName (pC2.regions.map strToUpper)
      (TruncateWindow btW tC2.truncateWindow)
      (IntervalNumber (btW + (-1) * tC2.maxIntervalStartAge)) (IntervalNumber btW) =
        .ok eC2a ∧
    TransformExposureKey false kC2b pC2.appPackageName (pC2.regions.map strToUpper)
      (TruncateWindow btW tC2.truncateWindow)
      (IntervalNumber (btW + (-1) * tC2.maxIntervalStartAge)) (IntervalNumber btW) =
        .ok eC2b ∧
    (tC2.TransformPublish false pC2 btW).isOk = true :=
  ⟨by decide, by decide,
    (C2_overlap_pair tC2 btW pC2 kC2a kC2b eC2a eC2b rfl (by decide)
      (by decide) (by decide)).1 rfl⟩

/-- Transformer used by the C4 witness: at most one key. -/
def tC4 : Transformer := ⟨1, 1209600000000000, 3600000000000⟩

def pC4empty : Publish := ⟨[], ["us"], "app", "android", "", "", ""⟩

def pC4two : Publish := ⟨[kC2a, kC2b], ["us"], "app", "android", "", "", ""⟩

/-- A key whose transport encoding is not valid base64. -/
def kC4bad : ExposureKey := ⟨"%", 2704000, 100, 3⟩

def pC4bad : Publish := ⟨[kC4bad], ["us"], "app", "android", "", "", ""⟩

/-- Claim C4 witness: the all-or-nothing theorem applied to an empty batch, an
oversized batch, and a batch whose only key fails to decode. -/
theorem C4_witness :
    tC4.TransformPublish false pC4empty btW = .error .emptyKeySet ∧
    tC4.TransformPublish false pC4two btW = .error (.tooManyKeys 2 1) ∧
    tC4.TransformPublish false pC4bad btW =
      .error (.invalidPublishData .invalidKeyEncoding) :=
  ⟨(C4_all_or_nothing tC4 false pC4empty btW).1 rfl,
    (C4_all_or_nothing tC4 false pC4two btW).2.1 (by decide) (by decide),
    (C4_all_or_nothing tC4 false pC4bad btW).2.2.1 [] kC4bad [] .invalidKeyEncoding rfl
      (by simp) (by decide) (by decide)⟩

/-- Transformer for the C7/C10 witnesses. -/
def tC7 : Transformer := ⟨21, 1209600000000000, 3600000000000⟩

/-- The spec's concrete scenario key: `IntervalNumber(batchTime) - 10`,
count 144 (the key is still valid at batch time, so the environment bypass
must be on for the per-key transform to accept it). -/
def kC7 : ExposureKey := ⟨"AAAAAAAAAAAAAAAAAAAAAA==", 2704166, 144, 3⟩

def pC7 : Publish := ⟨[kC7], ["us"], "app", "android", "", "", ""⟩

def eC7 : Exposure :=
  ⟨[0, 0, 0, 0, 0, 0, 0, 0, 0, 0, 0, 0, 0, 0, 0, 0], 3, "app", ["US"],
    2704166, 144, 1622505600000000000, true, 0⟩

/-- Claim C7 witness: the spec's concrete scenario (with the still-valid bypass
on): exactly one record, with the truncated batch time as `createdAt`,
upper-cased regions, the request's package name, and local provenance. -/
theorem C7_witness :
    tC7.TransformPublish true pC7 btW = .ok [eC7] ∧
    ([eC7].length = pC7.keys.length ∧
      ∀ e ∈ [eC7], e.createdAt = TruncateWindow btW tC7.truncateWindow ∧
        e.regions = pC7.regions.map strToUpper ∧
        e.appPackageName = pC7.appPackageName ∧ e.localProvenance = true) :=
  ⟨by decide, C7_success_record_shape tC7 true pC7 btW [eC7] (by decide)⟩

/-- C10 witness: three valid keys all starting at interval 2704000. -/
def pC10 : Publish :=
  ⟨[⟨"AAAAAAAAAAAAAAAAAAAAAA==", 2704000, 50, 3⟩,
    ⟨"AAAAAAAAAAAAAAAAAAAAAA==", 2704000, 100, 3⟩,
    ⟨"AAAAAAAAAAAAAAAAAAAAAA==", 2704000, 144, 3⟩], ["us"], "app", "android", "", "", ""⟩

/-- Claim C10 witness: a three-key same-start batch is accepted. -/
theorem C10_witness :
    (∀ k ∈ pC10.keys, (TransformExposureKey false k pC10.appPackageName
      (pC10.regions.map strToUpper) (TruncateWindow btW tC7.truncateWindow)
      (IntervalNumber (btW + (-1) * tC7.maxIntervalStartAge)) (IntervalNumber btW)).isOk =
        true) ∧
    (∀ k ∈ pC10.keys, k.intervalNumber = 2704000) ∧
    (tC7.TransformPublish false pC10 btW).isOk = true :=
  ⟨by decide, by decide,
    C10_same_start_accepted tC7 false pC10 btW 2704000 (by decide) (by decide)
      (by decide) (by decide)⟩
